import Mathlib

/-!
# Verification of `variant_core` (VCF/BED streaming parsers)

Shallow embedding of `src/variant_core/vcf.py` and `src/variant_core/bed.py`.

Modelling conventions:
* Python `str` is Lean `String`; Python `int` is `ℤ` (arbitrary precision);
  Python `float` values reached by this code are exact decimals, modelled as `ℚ`.
* A text file is modelled as the list of its raw lines (each line as the
  line-iteration of a Python file object produces it).
* Python exceptions are modelled with `Except PyErr`; `PyErr` distinguishes
  `ValueError`s raised by repository code (with their exact message text),
  `ValueError`s raised by the builtins `int()` / `float()` (tagged with the
  offending string), and `IndexError` from list indexing.
-/

/-- Errors a parse step can raise, mirroring the Python exceptions. -/
inductive PyErr where
  /-- `raise ValueError(msg)` in repository code, with the formatted message. -/
  | valueError (msg : String)
  /-- `ValueError` f"Quality must not be negative, got {qual}" (float payload). -/
  | negQual (q : ℚ)
  /-- `ValueError` f"Position must be >= 1, got {pos}". -/
  | badPos (p : ℤ)
  /-- `ValueError` f"Invalid base '{b}' in ref/alt". -/
  | badBase (b : Char)
  /-- `ValueError` raised by the builtin `int(s)` on a non-integer literal. -/
  | intError (s : String)
  /-- `ValueError` raised by the builtin `float(s)` on a non-numeric literal. -/
  | floatError (s : String)
  /-- `IndexError: list index out of range` from `fields[i]`. -/
  | indexError
deriving Repr, DecidableEq

deriving instance DecidableEq for Except

/-- The whitespace characters removed by Python `str.strip()` (ASCII fragment). -/
def pyIsSpace (c : Char) : Bool :=
  c = ' ' || c = '\t' || c = '\n' || c = '\r' || c = '\x0b' || c = '\x0c'

/-- Python `str.strip()`: remove leading and trailing whitespace. -/
def pyStrip (s : String) : String :=
  String.mk (((s.data.dropWhile pyIsSpace).reverse.dropWhile pyIsSpace).reverse)

/-- Validity of the digit run of a Python integer literal: digits with single
underscores allowed between digits (`1_000`), no leading, trailing or doubled
underscore, at least one digit.  `needDigit` is true when the next character
must be a digit (at the start and right after an underscore). -/
def pyDigitsOk : Bool → List Char → Bool
  | needDigit, [] => !needDigit
  | needDigit, c :: rest =>
    if c = '_' then !needDigit && pyDigitsOk true rest
    else c.isDigit && pyDigitsOk false rest

/-- Numeric value of a digit run, ignoring underscores. -/
def digitsToNat (l : List Char) : ℕ :=
  (l.filter (fun c => c ≠ '_')).foldl (fun a c => a * 10 + (c.toNat - 48)) 0

/-- Python `int(s)` for base-10 string input (ASCII fragment): strip
whitespace, optional sign, then a digit run.  `none` models the `ValueError`
raised on anything else. -/
def pyInt (s : String) : Option ℤ :=
  match (pyStrip s).data with
  | '+' :: rest => if pyDigitsOk true rest then some (digitsToNat rest : ℤ) else none
  | '-' :: rest => if pyDigitsOk true rest then some (-(digitsToNat rest : ℤ)) else none
  | rest => if pyDigitsOk true rest then some (digitsToNat rest : ℤ) else none

/-- Consume an optional sign; returns (isNegative, rest). -/
def pySign : List Char → Bool × List Char
  | '+' :: r => (false, r)
  | '-' :: r => (true, r)
  | r => (false, r)

/-- Split a leading digit run off a character list. -/
def pyTakeDigits (l : List Char) : List Char × List Char :=
  (l.takeWhile Char.isDigit, l.dropWhile Char.isDigit)

/-- Value of an optional exponent suffix applied to the exact fraction
`num / den`; `none` models a malformed exponent. -/
def pyExpQ (num : ℤ) (den : ℕ) (r : List Char) : Option ℚ :=
  let (eneg, r1) := pySign r
  let (ed, r2) := pyTakeDigits r1
  if ed = [] || r2 ≠ [] then none
  else some (if eneg then mkRat num (den * 10 ^ digitsToNat ed)
             else mkRat (num * 10 ^ digitsToNat ed) den)

/-- Python `float(s)` on the finite decimal literals this code can meet
(`digits[.digits][e±digits]`, signed); the value is kept exact in `ℚ`.
`none` models the `ValueError` raised on anything else. -/
def pyFloat (s : String) : Option ℚ :=
  let (neg, l1) := pySign (pyStrip s).data
  let (ip, l2) := pyTakeDigits l1
  let (hadDot, fpl3) :=
    match l2 with
    | '.' :: r => (true, pyTakeDigits r)
    | _ => (false, (([] : List Char), l2))
  let fp := fpl3.1
  let l3 := fpl3.2
  if ip = [] && (fp = [] || !hadDot) then none
  else
    let num0 : ℤ := (digitsToNat ip * 10 ^ fp.length + digitsToNat fp : ℕ)
    let num : ℤ := if neg then -num0 else num0
    let den : ℕ := 10 ^ fp.length
    match l3 with
    | [] => some (mkRat num den)
    | 'e' :: r => pyExpQ num den r
    | 'E' :: r => pyExpQ num den r
    | _ => none

/-- Does `p` occur as an initial segment of `c`?  (Structural recursion, used
in place of Python `str.startswith`.) -/
def pyListStarts : List Char → List Char → Bool
  | [], _ => true
  | _ :: _, [] => false
  | p :: ps, c :: cs => p = c && pyListStarts ps cs

/-- Python `s.startswith(pre)`. -/
def pyStarts (s pre : String) : Bool := pyListStarts pre.data s.data

/-- Helper for `pySplitChar`: `acc` is the current field, reversed. -/
def pySplitAux (sep : Char) : List Char → List Char → List String
  | [], acc => [String.mk acc.reverse]
  | c :: rest, acc =>
    if c = sep then String.mk acc.reverse :: pySplitAux sep rest []
    else pySplitAux sep rest (c :: acc)

/-- Python `s.split(sep)` for a one-character separator: empty fields are
kept, `"".split(sep) == [""]`. -/
def pySplitChar (sep : Char) (s : String) : List String := pySplitAux sep s.data []

/-- Python `fields[i]` on a list: the element, or `IndexError` out of range. -/
def pyGet (l : List String) (i : ℕ) : Except PyErr String :=
  match l.get? i with
  | some x => Except.ok x
  | none => Except.error PyErr.indexError

/-- `int(s)` as an `Except`: the integer, or the builtin `ValueError`. -/
def pyIntE (s : String) : Except PyErr ℤ :=
  match pyInt s with
  | some n => Except.ok n
  | none => Except.error (PyErr.intError s)

/-- `float(s)` as an `Except`: the rational value, or the builtin `ValueError`. -/
def pyFloatE (s : String) : Except PyErr ℚ :=
  match pyFloat s with
  | some q => Except.ok q
  | none => Except.error (PyErr.floatError s)

/-- `Region` (bed.py): immutable dataclass for one genomic interval.  The
dataclass has no `__post_init__`, so construction never validates. -/
structure Region where
  chrom : String
  start : ℤ
  «end» : ℤ
  name : String
deriving Repr, DecidableEq

/-- The `Region(...)` dataclass constructor: total, no validation. -/
def Region.make (chrom : String) (start «end» : ℤ) (name : String) : Region :=
  ⟨chrom, start, «end», name⟩

/-- `Variant` (vcf.py): immutable dataclass for one genomic variant. -/
structure Variant where
  chrom : String
  pos : ℤ
  id : String
  ref : String
  alt : String
  qual : Option ℚ
  filter : String
  info : List String
  format_fields : List String
  samples : List String
deriving Repr, DecidableEq

/-- The allowed base alphabet `set("GTCAN.,")` of `Variant._base_validation`. -/
def valid_bases : List Char := ['G', 'T', 'C', 'A', 'N', '.', ',']

/-- `Variant._base_validation`: scan `(ref + alt).upper()` and report the
first character outside `valid_bases`, if any. -/
def baseValidation (ref alt : String) : Option PyErr :=
  (((ref ++ alt).data.map Char.toUpper).find? (fun c => !(valid_bases.contains c))).map
    PyErr.badBase

/-- The `Variant(...)` dataclass constructor together with `__post_init__`:
quality check, then position check, then base-character check; on success the
fields are stored unchanged. -/
def Variant.make (chrom : String) (pos : ℤ) (id : String) (ref alt : String)
    (qual : Option ℚ) (filter : String) (info format_fields samples : List String) :
    Except PyErr Variant :=
  match qual with
  | some q =>
    if q < 0 then Except.error (PyErr.negQual q)
    else if pos < 1 then Except.error (PyErr.badPos pos)
    else match baseValidation ref alt with
      | some e => Except.error e
      | none => Except.ok ⟨chrom, pos, id, ref, alt, qual, filter, info, format_fields, samples⟩
  | none =>
    if pos < 1 then Except.error (PyErr.badPos pos)
    else match baseValidation ref alt with
      | some e => Except.error e
      | none => Except.ok ⟨chrom, pos, id, ref, alt, qual, filter, info, format_fields, samples⟩

/-- `Variant.is_snp`: true iff `ref` and `alt` each have raw length 1. -/
def Variant.is_snp (v : Variant) : Bool :=
  v.ref.length = 1 && v.alt.length = 1

/-- `BEDReader._parse_line` (bed.py): split the (already stripped) line on
tabs, require at least 3 fields, parse `start`/`end` as integers, default the
`name` column to `"."` when absent, ignore columns past index 3. -/
def BEDReader.parse_line (line : String) : Except PyErr Region :=
  let fields := pySplitChar '\t' line
  if fields.length < 3 then
    Except.error (PyErr.valueError
      ("Invalid BED line: expected 3+ fields, got " ++ toString fields.length))
  else
    let name_field := if fields.length > 3 then fields.getD 3 "" else "."
    do
      let c ← pyGet fields 0
      let s1 ← pyGet fields 1
      let a ← pyIntE s1
      let s2 ← pyGet fields 2
      let b ← pyIntE s2
      Except.ok (Region.make c a b name_field)

/-- `VCFReader._parse_line` (vcf.py): strip, split on tabs, require at least
8 fields, then build the `Variant` evaluating the argument expressions in
source order — note `fields[8]` is accessed unconditionally. -/
def VCFReader.parse_line (line : String) : Except PyErr Variant :=
  let fields := pySplitChar '\t' (pyStrip line)
  if fields.length < 8 then Except.error (PyErr.valueError "Insufficient columns")
  else do
    let f0 ← pyGet fields 0
    let f1 ← pyGet fields 1
    let pos ← pyIntE f1
    let f2 ← pyGet fields 2
    let f3 ← pyGet fields 3
    let f4 ← pyGet fields 4
    let f5 ← pyGet fields 5
    let qual ← if f5 = "." then Except.ok (none : Option ℚ)
               else do
                 let q ← pyFloatE f5
                 Except.ok (some q)
    let f6 ← pyGet fields 6
    let f7 ← pyGet fields 7
    let f8 ← pyGet fields 8
    Variant.make f0 pos f2 f3 f4 qual f6 (pySplitChar ';' f7)
      (pySplitChar ':' f8) (fields.drop 9)

/-- Line classification of `BEDReader.__iter__`: after stripping, skip empty
lines, comments (`#`) and UCSC `track` lines. -/
def bedSkip (line : String) : Bool :=
  let s := pyStrip line
  s = "" || pyStarts s "#" || pyStarts s "track"

/-- Line classification of `VCFReader.__iter__`: skip lines whose raw form
starts with `#` and lines that strip to empty. -/
def vcfSkip (line : String) : Bool :=
  pyStarts line "#" || pyStrip line = ""

/-- `BEDReader.__iter__` driven to completion over the file's raw lines:
the regions yielded before iteration ends, and the error (if any) that
terminated it.  Note the generator parses the *stripped* line. -/
def BEDReader.iterate : List String → List Region × Option PyErr
  | [] => ([], none)
  | line :: rest =>
    if bedSkip line then BEDReader.iterate rest
    else
      match BEDReader.parse_line (pyStrip line) with
      | Except.error e => ([], some e)
      | Except.ok r =>
        let (rs, e) := BEDReader.iterate rest
        (r :: rs, e)

/-- `VCFReader.__iter__` driven to completion over the file's raw lines. -/
def VCFReader.iterate : List String → List Variant × Option PyErr
  | [] => ([], none)
  | line :: rest =>
    if vcfSkip line then VCFReader.iterate rest
    else
      match VCFReader.parse_line line with
      | Except.error e => ([], some e)
      | Except.ok v =>
        let (vs, e) := VCFReader.iterate rest
        (v :: vs, e)

example : pyInt "100" = some 100 := by decide
example : pyInt " -42 " = some (-42) := by decide
example : pyInt "b" = none := by decide
example : pyInt "1_0" = some 10 := by decide
example : pyInt "1__0" = none := by decide
example : pyInt "_1" = none := by decide
example : pyInt "1_" = none := by decide
example : pyFloat "50.0" = some 50 := by decide
example : pyFloat "." = none := by decide
example : pyFloat "-2.5" = some (mkRat (-5) 2) := by decide
example : pyFloat "1e2" = some 100 := by decide
example : pyStrip " a\tb\n" = "a\tb" := by decide
example : pySplitChar '\t' "a\t\tb" = ["a", "", "b"] := by decide
example : pySplitChar '\t' "" = [""] := by decide
example : pyStarts "#x" "#" = true := by decide
example : pyStarts "tr" "track" = false := by decide
example : baseValidation "A" "G,T" = none := by decide
example : baseValidation "A" "gZ" = some (PyErr.badBase 'Z') := by decide
example : BEDReader.parse_line "chr1\t100\t200\tgeneA" =
    Except.ok (Region.make "chr1" 100 200 "geneA") := by decide
example : BEDReader.parse_line "chr1\t100\t200" =
    Except.ok (Region.make "chr1" 100 200 ".") := by decide
example : BEDReader.parse_line "chr1\t1" =
    Except.error (PyErr.valueError "Invalid BED line: expected 3+ fields, got 2") := by decide
example : BEDReader.parse_line "chr1\tx\t200" =
    Except.error (PyErr.intError "x") := by decide
example : VCFReader.parse_line "chr1\t100\t.\tA\tG,T\t50.0\tPASS\t.\n" =
    Except.error PyErr.indexError := by decide
example : VCFReader.parse_line "chr1\t100\t.\tA\tG,T\t50.0\tPASS\t.\tGT\t0/1\n" =
    Except.ok ⟨"chr1", 100, ".", "A", "G,T", some 50, "PASS", ["."], ["GT"], ["0/1"]⟩ := by
  decide
example : VCFReader.iterate ["##meta\n", "#CHROM\n", "chr2\t7\t.\tG\tC\t.\tPASS\ta;b\tGT:DP\ts1\ts2\n"] =
    ([⟨"chr2", 7, ".", "G", "C", none, "PASS", ["a", "b"], ["GT", "DP"], ["s1", "s2"]⟩], none) := by
  decide
example : BEDReader.iterate ["# c\n", "track n\n", "\n", "chr1\t100\t200\tgeneA\n"] =
    ([Region.make "chr1" 100 200 "geneA"], none) := by decide

/-! ## Claim theorems -/

/-- C1.  The code, not the claim, is at fault here: a VCF data line with
exactly 8 tab-separated columns passes the minimum-column check but then
`fields[8]` raises `IndexError`, so the concrete line of the claim yields no
`Variant` at all — iteration terminates with an `IndexError` instead of
producing a record with empty `format_fields` and `samples`. -/
theorem vcf_eight_column_line_raises_index_error :
    VCFReader.parse_line "chr1\t100\t.\tA\tG,T\t50.0\tPASS\t.\n" =
      Except.error PyErr.indexError ∧
    VCFReader.iterate ["chr1\t100\t.\tA\tG,T\t50.0\tPASS\t.\n"] =
      ([], some PyErr.indexError) := by
  decide

/-- C8.  `Region` construction is total and performs no validation: for every
`chrom`, `start`, `end` and `name` — `start`/`end` range over all integers, so
negative values and `start > end` are included — construction succeeds (it is
a total function into `Region`) and stores exactly the given field values. -/
theorem region_make_total (c : String) (s e : ℤ) (n : String) :
    (Region.make c s e n).chrom = c ∧ (Region.make c s e n).start = s ∧
      (Region.make c s e n).«end» = e ∧ (Region.make c s e n).name = n :=
  ⟨rfl, rfl, rfl, rfl⟩

/-- C9.  With `ref = ""` and `alt = ""` and otherwise-valid fields, `Variant`
construction succeeds (the base-alphabet scan is vacuous on the empty
string) and `is_snp()` on the result returns `false`. -/
theorem variant_empty_ref_alt_ok (chrom : String) (pos : ℤ) (i : String)
    (q : Option ℚ) (filt : String) (info ff ss : List String)
    (hq : ∀ x ∈ q, ¬ x < 0) (hpos : ¬ pos < 1) :
    Variant.make chrom pos i "" "" q filt info ff ss =
      Except.ok ⟨chrom, pos, i, "", "", q, filt, info, ff, ss⟩ ∧
    Variant.is_snp ⟨chrom, pos, i, "", "", q, filt, info, ff, ss⟩ = false := by
  constructor
  · cases q with
    | none => simp [Variant.make, if_neg hpos, baseValidation]
    | some x =>
      have hx : ¬ x < 0 := hq x (by simp)
      simp [Variant.make, if_neg hx, if_neg hpos, baseValidation]
  · rfl

/-- Witness for C9 at concrete fields. -/
theorem variant_empty_ref_alt_ok_witness :
    Variant.make "chr1" 5 "." "" "" (some 1) "PASS" [] [] [] =
      Except.ok ⟨"chr1", 5, ".", "", "", some 1, "PASS", [], [], []⟩ ∧
    Variant.is_snp ⟨"chr1", 5, ".", "", "", some 1, "PASS", [], [], []⟩ = false :=
  variant_empty_ref_alt_ok "chr1" 5 "." (some 1) "PASS" [] [] []
    (by intro x hx; simp at hx; subst hx; decide) (by decide)

/-- C10.  `__post_init__` checks run in a fixed order — quality, then
position, then bases — so a negative present quality wins over any other
violation, and with quality acceptable a non-positive position wins over any
base violation. -/
theorem variant_check_order (chrom : String) (pos : ℤ) (i r a : String)
    (q : ℚ) (filt : String) (info ff ss : List String) :
    (q < 0 →
      Variant.make chrom pos i r a (some q) filt info ff ss =
        Except.error (PyErr.negQual q)) ∧
    (∀ q2 : Option ℚ, (∀ x ∈ q2, ¬ x < 0) → pos < 1 →
      Variant.make chrom pos i r a q2 filt info ff ss =
        Except.error (PyErr.badPos pos)) := by
  constructor
  · intro hq
    simp [Variant.make, if_pos hq]
  · intro q2 hq2 hpos
    cases q2 with
    | none => simp [Variant.make, if_pos hpos]
    | some x =>
      have hx : ¬ x < 0 := hq2 x (by simp)
      simp [Variant.make, if_neg hx, if_pos hpos]

/-- Witness for C10: with `qual = -1` and `pos = 0` the quality error is
raised; with `qual` absent, `pos = 0` and an invalid base the position error
is raised. -/
theorem variant_check_order_witness :
    Variant.make "c" 0 "." "Z" "Q" (some (-1)) "PASS" [] [] [] =
      Except.error (PyErr.negQual (-1)) ∧
    Variant.make "c" 0 "." "Z" "Q" none "PASS" [] [] [] =
      Except.error (PyErr.badPos 0) :=
  ⟨(variant_check_order "c" 0 "." "Z" "Q" (-1) "PASS" [] [] []).1 (by decide),
   (variant_check_order "c" 0 "." "Z" "Q" (-1) "PASS" [] [] []).2 none
     (by intro x hx; simp at hx) (by decide)⟩

/-- The base scan accepts a string pair exactly when every character of the
concatenation, uppercased, lies in the allowed alphabet. -/
theorem baseValidation_eq_none_iff (r a : String) :
    baseValidation r a = none ↔ ∀ c ∈ (r ++ a).data, Char.toUpper c ∈ valid_bases := by
  unfold baseValidation
  constructor
  · intro h c hc
    cases hf : ((r ++ a).data.map Char.toUpper).find? (fun c => !(valid_bases.contains c)) with
    | some e => rw [hf] at h; exact absurd h (by simp)
    | none =>
      have := List.find?_eq_none.mp hf (Char.toUpper c) (List.mem_map_of_mem _ hc)
      simpa using this
  · intro h
    rw [Option.map_eq_none']
    apply List.find?_eq_none.mpr
    intro c hc
    obtain ⟨b, hb, rfl⟩ := List.mem_map.mp hc
    simpa using h b hb

/-- A successful `Variant.make` stores exactly the given fields. -/
theorem variant_make_shape (chrom : String) (pos : ℤ) (i r a : String)
    (q : Option ℚ) (filt : String) (info ff ss : List String) (v : Variant)
    (h : Variant.make chrom pos i r a q filt info ff ss = Except.ok v) :
    v = ⟨chrom, pos, i, r, a, q, filt, info, ff, ss⟩ := by
  unfold Variant.make at h
  cases q with
  | none =>
    by_cases hp : pos < 1
    · rw [if_pos hp] at h; exact absurd h (by simp)
    · rw [if_neg hp] at h
      cases hbv : baseValidation r a with
      | some e => rw [hbv] at h; exact absurd h (by simp)
      | none => rw [hbv] at h; exact (Except.ok.inj h).symm
  | some x =>
    dsimp only at h
    by_cases hx : x < 0
    · rw [if_pos hx] at h; exact absurd h (by simp)
    · rw [if_neg hx] at h
      by_cases hp : pos < 1
      · rw [if_pos hp] at h; exact absurd h (by simp)
      · rw [if_neg hp] at h
        cases hbv : baseValidation r a with
        | some e => rw [hbv] at h; exact absurd h (by simp)
        | none => rw [hbv] at h; exact (Except.ok.inj h).symm

/-- `Variant.make` succeeds with the given payload exactly when all three
invariants hold. -/
theorem variant_make_ok_char (chrom : String) (pos : ℤ) (i r a : String)
    (q : Option ℚ) (filt : String) (info ff ss : List String) :
    Variant.make chrom pos i r a q filt info ff ss =
        Except.ok ⟨chrom, pos, i, r, a, q, filt, info, ff, ss⟩ ↔
      ((∀ x ∈ q, ¬ x < 0) ∧ ¬ pos < 1 ∧
        ∀ c ∈ (r ++ a).data, Char.toUpper c ∈ valid_bases) := by
  rw [← baseValidation_eq_none_iff]
  unfold Variant.make
  cases q with
  | none =>
    by_cases hp : pos < 1
    · simp [hp]
    · rw [if_neg hp]
      cases hbv : baseValidation r a with
      | some e => simp [hp, hbv]
      | none => simp [hp, hbv]
  | some x =>
    dsimp only
    by_cases hx : x < 0
    · rw [if_pos hx]
      simp [hx]
    · rw [if_neg hx]
      by_cases hp : pos < 1
      · rw [if_pos hp]
        simp [hp, hx]
      · rw [if_neg hp]
        cases hbv : baseValidation r a with
        | some e => simp [hp, hx, hbv]
        | none =>
          simp [hp, hx, hbv]
          exact not_lt.mp hx

/-- C2.  `Variant` construction fails exactly when a present quality is
negative, or the position is below 1, or some character of `ref ++ alt`
(uppercased) lies outside the allowed alphabet; equivalently it succeeds with
the fields stored unchanged exactly when none of the three invariants is
violated; and in particular with `alt = "G,T"` and otherwise-valid fields it
succeeds with `alt` preserved. -/
theorem variant_make_validation (chrom : String) (pos : ℤ) (i r a : String)
    (q : Option ℚ) (filt : String) (info ff ss : List String) :
    ((∃ e, Variant.make chrom pos i r a q filt info ff ss = Except.error e) ↔
      ((∃ x ∈ q, x < 0) ∨ pos < 1 ∨
        ∃ c ∈ (r ++ a).data, Char.toUpper c ∉ valid_bases)) ∧
    (Variant.make chrom pos i r a q filt info ff ss =
        Except.ok ⟨chrom, pos, i, r, a, q, filt, info, ff, ss⟩ ↔
      ((∀ x ∈ q, ¬ x < 0) ∧ ¬ pos < 1 ∧
        ∀ c ∈ (r ++ a).data, Char.toUpper c ∈ valid_bases)) ∧
    ((∀ x ∈ q, ¬ x < 0) → ¬ pos < 1 →
      (∀ c ∈ r.data, Char.toUpper c ∈ valid_bases) →
      Variant.make chrom pos i r "G,T" q filt info ff ss =
        Except.ok ⟨chrom, pos, i, r, "G,T", q, filt, info, ff, ss⟩) := by
  have B := variant_make_ok_char chrom pos i r a q filt info ff ss
  refine ⟨?_, B, ?_⟩
  · constructor
    · rintro ⟨e, he⟩
      by_contra hnc
      have h1 : ∀ x ∈ q, ¬ x < 0 := fun x hx hlt => hnc (Or.inl ⟨x, hx, hlt⟩)
      have h2 : ¬ pos < 1 := fun hlt => hnc (Or.inr (Or.inl hlt))
      have h3 : ∀ c ∈ (r ++ a).data, Char.toUpper c ∈ valid_bases := by
        intro c hcm
        by_contra hcn
        exact hnc (Or.inr (Or.inr ⟨c, hcm, hcn⟩))
      rw [B.mpr ⟨h1, h2, h3⟩] at he
      exact Except.noConfusion he
    · intro hviol
      cases hres : Variant.make chrom pos i r a q filt info ff ss with
      | error e => exact ⟨e, rfl⟩
      | ok v =>
        have hv := variant_make_shape chrom pos i r a q filt info ff ss v hres
        rw [hv] at hres
        have hc := B.mp hres
        rcases hviol with h | h | h
        · obtain ⟨x, hxq, hx⟩ := h
          exact absurd hx (hc.1 x hxq)
        · exact absurd h hc.2.1
        · obtain ⟨c, hcm, hcn⟩ := h
          exact absurd (hc.2.2 c hcm) hcn
  · intro hq hp hr
    apply (variant_make_ok_char chrom pos i r "G,T" q filt info ff ss).mpr
    refine ⟨hq, hp, ?_⟩
    intro c hc
    have hsplit : (r ++ "G,T").data = r.data ++ ("G,T").data := rfl
    rw [hsplit] at hc
    rcases List.mem_append.mp hc with h | h
    · exact hr c h
    · have hGT : ∀ c ∈ ("G,T").data, Char.toUpper c ∈ valid_bases := by decide
      exact hGT c h

/-- Witness for C2: success (with `alt = "G,T"` preserved) on valid fields,
failure on an invalid position. -/
theorem variant_make_validation_witness :
    Variant.make "chr1" 100 "." "A" "G,T" (some 50) "PASS" ["."] [] [] =
      Except.ok ⟨"chr1", 100, ".", "A", "G,T", some 50, "PASS", ["."], [], []⟩ ∧
    (∃ e, Variant.make "chr1" 0 "." "A" "T" none "PASS" [] [] [] =
      Except.error e) := by
  constructor
  · exact (variant_make_validation "chr1" 100 "." "A" "G,T" (some 50) "PASS"
      ["."] [] []).2.2
      (by intro x hx; simp at hx; subst hx; decide) (by decide) (by decide)
  · exact (variant_make_validation "chr1" 0 "." "A" "T" none "PASS"
      [] [] []).1.mpr (Or.inr (Or.inl (by decide)))

/-- In-bounds Python list indexing returns the element. -/
theorem pyGet_ok {l : List String} {i : ℕ} (h : i < l.length) :
    pyGet l i = Except.ok (l.getD i "") := by
  cases hg : l.get? i with
  | none =>
    rw [List.get?_eq_none] at hg
    omega
  | some x =>
    have hg2 : l[i]? = some x := by rw [← List.get?_eq_getElem?]; exact hg
    simp [pyGet, hg, hg2]

/-- `int(s)` succeeds on a valid integer literal. -/
theorem pyIntE_some {s : String} {n : ℤ} (h : pyInt s = some n) :
    pyIntE s = Except.ok n := by
  unfold pyIntE
  rw [h]

/-- `int(s)` raises on an invalid integer literal. -/
theorem pyIntE_none {s : String} (h : pyInt s = none) :
    pyIntE s = Except.error (PyErr.intError s) := by
  unfold pyIntE
  rw [h]

/-- Monad law for `Except`, specialised for rewriting. -/
theorem except_bind_ok {ε α β : Type} (a : α) (f : α → Except ε β) :
    (Except.ok a : Except ε α) >>= f = f a := rfl

/-- Monad law for `Except`, specialised for rewriting. -/
theorem except_bind_error {ε α β : Type} (e : ε) (f : α → Except ε β) :
    (Except.error e : Except ε α) >>= f = Except.error e := rfl

/-- On a line with at least 3 tab-separated fields, `BEDReader._parse_line`
reduces to the two integer conversions followed by `Region` construction. -/
theorem bed_parse_line_char (line : String)
    (h : ¬ (pySplitChar '\t' line).length < 3) :
    BEDReader.parse_line line =
      (pyIntE ((pySplitChar '\t' line).getD 1 "") >>= fun a =>
       pyIntE ((pySplitChar '\t' line).getD 2 "") >>= fun b =>
       Except.ok (Region.make ((pySplitChar '\t' line).getD 0 "") a b
         (if (pySplitChar '\t' line).length > 3
          then (pySplitChar '\t' line).getD 3 "" else "."))) := by
  have h0 : 0 < (pySplitChar '\t' line).length := by omega
  have h1 : 1 < (pySplitChar '\t' line).length := by omega
  have h2 : 2 < (pySplitChar '\t' line).length := by omega
  simp only [BEDReader.parse_line]
  rw [if_neg h]
  simp only [pyGet_ok h0, pyGet_ok h1, pyGet_ok h2, except_bind_ok]

/-- C3 counterexample.  The actual error messages differ from the claimed
ones: a 2-field BED line raises "Invalid BED line: expected 3+ fields, got 2"
(not "invalid record: expected at least 3 fields"), and a short VCF line
raises "Insufficient columns" with a capital I (not "insufficient columns"). -/
theorem reader_min_field_messages_counterexample :
    BEDReader.parse_line "x\t1" =
      Except.error (PyErr.valueError "Invalid BED line: expected 3+ fields, got 2") ∧
    "Invalid BED line: expected 3+ fields, got 2" ≠
      "invalid record: expected at least 3 fields" ∧
    VCFReader.parse_line "x" =
      Except.error (PyErr.valueError "Insufficient columns") ∧
    "Insufficient columns" ≠ "insufficient columns" := by
  decide

/-- C3 (amended).  A non-skipped BED line with fewer than 3 tab-separated
fields fails with the `ValueError` "Invalid BED line: expected 3+ fields, got
{N}"; a VCF line with fewer than 8 fields fails with the `ValueError`
"Insufficient columns"; and a BED `start` or `end` field that is not a valid
integer literal fails with the `ValueError` raised by `int()`. -/
theorem reader_min_field_errors (l1 l2 l3 l4 : String) (n : ℤ) :
    ((pySplitChar '\t' l1).length < 3 →
      BEDReader.parse_line l1 = Except.error (PyErr.valueError
        ("Invalid BED line: expected 3+ fields, got " ++
          toString (pySplitChar '\t' l1).length))) ∧
    ((pySplitChar '\t' (pyStrip l2)).length < 8 →
      VCFReader.parse_line l2 =
        Except.error (PyErr.valueError "Insufficient columns")) ∧
    (¬ (pySplitChar '\t' l3).length < 3 →
      pyInt ((pySplitChar '\t' l3).getD 1 "") = none →
      BEDReader.parse_line l3 =
        Except.error (PyErr.intError ((pySplitChar '\t' l3).getD 1 ""))) ∧
    (¬ (pySplitChar '\t' l4).length < 3 →
      pyInt ((pySplitChar '\t' l4).getD 1 "") = some n →
      pyInt ((pySplitChar '\t' l4).getD 2 "") = none →
      BEDReader.parse_line l4 =
        Except.error (PyErr.intError ((pySplitChar '\t' l4).getD 2 ""))) := by
  refine ⟨?_, ?_, ?_, ?_⟩
  · intro h
    simp only [BEDReader.parse_line]
    rw [if_pos h]
  · intro h
    simp only [VCFReader.parse_line]
    rw [if_pos h]
  · intro h hint
    rw [bed_parse_line_char l3 h, pyIntE_none hint, except_bind_error]
  · intro h h1 h2
    rw [bed_parse_line_char l4 h, pyIntE_some h1, except_bind_ok,
      pyIntE_none h2, except_bind_error]

/-- Witness for C3 (amended) at concrete short and malformed lines. -/
theorem reader_min_field_errors_witness :
    BEDReader.parse_line "x\t1" =
      Except.error (PyErr.valueError "Invalid BED line: expected 3+ fields, got 2") ∧
    VCFReader.parse_line "x" =
      Except.error (PyErr.valueError "Insufficient columns") ∧
    BEDReader.parse_line "a\tb\tc" = Except.error (PyErr.intError "b") ∧
    BEDReader.parse_line "a\t1\tz" = Except.error (PyErr.intError "z") := by
  have h := reader_min_field_errors "x\t1" "x" "a\tb\tc" "a\t1\tz" 1
  exact ⟨h.1 (by decide), h.2.1 (by decide),
    (by rw [h.2.2.1 (by decide) (by decide)]; decide),
    (by rw [h.2.2.2 (by decide) (by decide) (by decide)]; decide)⟩

/-- C4.  A 3-field BED line whose `start`/`end` parse as integers yields a
`Region` with `name = "."`; with 4 or more fields the name is the literal 4th
field and everything past index 3 is ignored without error; the concrete line
`"chr1\t100\t200\tgeneA\n"` yields exactly
`Region(chrom="chr1", start=100, end=200, name="geneA")`. -/
theorem bed_name_defaulting (l1 l2 : String) (a b : ℤ) :
    ((pySplitChar '\t' l1).length = 3 →
      pyInt ((pySplitChar '\t' l1).getD 1 "") = some a →
      pyInt ((pySplitChar '\t' l1).getD 2 "") = some b →
      BEDReader.parse_line l1 =
        Except.ok (Region.make ((pySplitChar '\t' l1).getD 0 "") a b ".")) ∧
    (3 < (pySplitChar '\t' l2).length →
      pyInt ((pySplitChar '\t' l2).getD 1 "") = some a →
      pyInt ((pySplitChar '\t' l2).getD 2 "") = some b →
      BEDReader.parse_line l2 =
        Except.ok (Region.make ((pySplitChar '\t' l2).getD 0 "") a b
          ((pySplitChar '\t' l2).getD 3 ""))) ∧
    BEDReader.iterate ["chr1\t100\t200\tgeneA\n"] =
      ([Region.make "chr1" 100 200 "geneA"], none) := by
  refine ⟨?_, ?_, by decide⟩
  · intro h3 ha hb
    rw [bed_parse_line_char l1 (by omega), pyIntE_some ha, except_bind_ok,
      pyIntE_some hb, except_bind_ok, if_neg (by omega)]
  · intro h3 ha hb
    rw [bed_parse_line_char l2 (by omega), pyIntE_some ha, except_bind_ok,
      pyIntE_some hb, except_bind_ok, if_pos (by omega)]

/-- Witness for C4 at a concrete 3-field and a concrete 5-field line. -/
theorem bed_name_defaulting_witness :
    BEDReader.parse_line "c\t1\t2" = Except.ok (Region.make "c" 1 2 ".") ∧
    BEDReader.parse_line "c\t1\t2\tn\tzzz" = Except.ok (Region.make "c" 1 2 "n") := by
  have h := bed_name_defaulting "c\t1\t2" "c\t1\t2\tn\tzzz" 1 2
  constructor
  · rw [h.1 (by decide) (by decide) (by decide)]
    decide
  · rw [h.2.1 (by decide) (by decide) (by decide)]
    decide

/-- A BED file whose lines are all skip lines yields nothing. -/
theorem bed_iterate_skip_all : ∀ ls : List String,
    (∀ l ∈ ls, bedSkip l = true) → BEDReader.iterate ls = ([], none)
  | [], _ => rfl
  | l :: rest, h => by
    unfold BEDReader.iterate
    rw [if_pos (h l (by simp))]
    exact bed_iterate_skip_all rest (fun x hx => h x (by simp [hx]))

/-- A VCF file whose lines are all skip lines yields nothing. -/
theorem vcf_iterate_skip_all : ∀ ls : List String,
    (∀ l ∈ ls, vcfSkip l = true) → VCFReader.iterate ls = ([], none)
  | [], _ => rfl
  | l :: rest, h => by
    unfold VCFReader.iterate
    rw [if_pos (h l (by simp))]
    exact vcf_iterate_skip_all rest (fun x hx => h x (by simp [hx]))

/-- C5.  A BED or VCF file consisting only of skip lines (for BED: stripped
line empty or starting with `#` or `track`; for VCF: raw line starting with
`#` or stripping to empty) yields zero records and no error. -/
theorem skip_only_files_yield_nothing (bedLines vcfLines : List String)
    (hb : ∀ l ∈ bedLines, bedSkip l = true)
    (hv : ∀ l ∈ vcfLines, vcfSkip l = true) :
    BEDReader.iterate bedLines = ([], none) ∧
    VCFReader.iterate vcfLines = ([], none) :=
  ⟨bed_iterate_skip_all bedLines hb, vcf_iterate_skip_all vcfLines hv⟩

/-- Witness for C5 on concrete all-skip files. -/
theorem skip_only_files_yield_nothing_witness :
    BEDReader.iterate ["# comment\n", "track name=x\n", "  \n"] = ([], none) ∧
    VCFReader.iterate ["##fileformat=VCFv4.2\n", "#CHROM\tPOS\n", "\n"] = ([], none) :=
  skip_only_files_yield_nothing
    ["# comment\n", "track name=x\n", "  \n"]
    ["##fileformat=VCFv4.2\n", "#CHROM\tPOS\n", "\n"]
    (by decide) (by decide)

/-- When every data line parses, BED iteration yields the parses of the data
lines, in file order, with no terminating error. -/
theorem bed_iterate_all_ok : ∀ ls : List String,
    (∀ l ∈ ls, bedSkip l = false →
      ∃ r, BEDReader.parse_line (pyStrip l) = Except.ok r) →
    ∃ rs, BEDReader.iterate ls = (rs, none) ∧
      rs.map Except.ok = (ls.filter (fun l => !bedSkip l)).map
        (fun l => BEDReader.parse_line (pyStrip l))
  | [], _ => ⟨[], rfl, rfl⟩
  | l :: rest, h => by
    obtain ⟨rs, hit, hmap⟩ :=
      bed_iterate_all_ok rest (fun x hx hs => h x (by simp [hx]) hs)
    cases hskip : bedSkip l with
    | true =>
      refine ⟨rs, ?_, ?_⟩
      · unfold BEDReader.iterate
        rw [if_pos hskip]
        exact hit
      · rw [List.filter_cons]
        simp only [hskip]
        exact hmap
    | false =>
      obtain ⟨r, hr⟩ := h l (by simp) hskip
      refine ⟨r :: rs, ?_, ?_⟩
      · unfold BEDReader.iterate
        rw [if_neg (by simp [hskip]), hr, hit]
      · rw [List.filter_cons]
        simp only [hskip]
        simp [hmap, hr]

/-- When every data line parses, VCF iteration yields the parses of the data
lines, in file order, with no terminating error. -/
theorem vcf_iterate_all_ok : ∀ ls : List String,
    (∀ l ∈ ls, vcfSkip l = false → ∃ v, VCFReader.parse_line l = Except.ok v) →
    ∃ vs, VCFReader.iterate ls = (vs, none) ∧
      vs.map Except.ok = (ls.filter (fun l => !vcfSkip l)).map VCFReader.parse_line
  | [], _ => ⟨[], rfl, rfl⟩
  | l :: rest, h => by
    obtain ⟨vs, hit, hmap⟩ :=
      vcf_iterate_all_ok rest (fun x hx hs => h x (by simp [hx]) hs)
    cases hskip : vcfSkip l with
    | true =>
      refine ⟨vs, ?_, ?_⟩
      · unfold VCFReader.iterate
        rw [if_pos hskip]
        exact hit
      · rw [List.filter_cons]
        simp only [hskip]
        exact hmap
    | false =>
      obtain ⟨v, hv⟩ := h l (by simp) hskip
      refine ⟨v :: vs, ?_, ?_⟩
      · unfold VCFReader.iterate
        rw [if_neg (by simp [hskip]), hv, hit]
      · rw [List.filter_cons]
        simp only [hskip]
        simp [hmap, hv]

/-- C6.  For a file whose N non-skipped data lines all parse, iteration
yields exactly N records, one per data line, in file order (the yielded list
maps one-to-one onto the parses of the filtered lines) — no reordering,
deduplication or sorting. -/
theorem iteration_preserves_order (bedLines vcfLines : List String)
    (hb : ∀ l ∈ bedLines, bedSkip l = false →
      ∃ r, BEDReader.parse_line (pyStrip l) = Except.ok r)
    (hv : ∀ l ∈ vcfLines, vcfSkip l = false →
      ∃ v, VCFReader.parse_line l = Except.ok v) :
    (∃ rs, BEDReader.iterate bedLines = (rs, none) ∧
      rs.length = (bedLines.filter (fun l => !bedSkip l)).length ∧
      rs.map Except.ok = (bedLines.filter (fun l => !bedSkip l)).map
        (fun l => BEDReader.parse_line (pyStrip l))) ∧
    (∃ vs, VCFReader.iterate vcfLines = (vs, none) ∧
      vs.length = (vcfLines.filter (fun l => !vcfSkip l)).length ∧
      vs.map Except.ok = (vcfLines.filter (fun l => !vcfSkip l)).map
        VCFReader.parse_line) := by
  obtain ⟨rs, hit, hmap⟩ := bed_iterate_all_ok bedLines hb
  obtain ⟨vs, hitv, hmapv⟩ := vcf_iterate_all_ok vcfLines hv
  refine ⟨⟨rs, hit, ?_, hmap⟩, ⟨vs, hitv, ?_, hmapv⟩⟩
  · have := congrArg List.length hmap
    simpa using this
  · have := congrArg List.length hmapv
    simpa using this

/-- Witness for C6 on a concrete BED file with two data lines among skip
lines and a concrete VCF file with one data line. -/
theorem iteration_preserves_order_witness :
    (∃ rs, BEDReader.iterate ["# h\n", "chr1\t1\t2\n", "chr2\t3\t4\tn\n"] = (rs, none) ∧
      rs.length = ((["# h\n", "chr1\t1\t2\n", "chr2\t3\t4\tn\n"]).filter
        (fun l => !bedSkip l)).length ∧
      rs.map Except.ok = ((["# h\n", "chr1\t1\t2\n", "chr2\t3\t4\tn\n"]).filter
        (fun l => !bedSkip l)).map (fun l => BEDReader.parse_line (pyStrip l))) ∧
    (∃ vs, VCFReader.iterate ["#C\n", "c\t1\t.\tA\tT\t.\tPASS\t.\tGT\ts\n"] = (vs, none) ∧
      vs.length = ((["#C\n", "c\t1\t.\tA\tT\t.\tPASS\t.\tGT\ts\n"]).filter
        (fun l => !vcfSkip l)).length ∧
      vs.map Except.ok = ((["#C\n", "c\t1\t.\tA\tT\t.\tPASS\t.\tGT\ts\n"]).filter
        (fun l => !vcfSkip l)).map VCFReader.parse_line) :=
  iteration_preserves_order
    ["# h\n", "chr1\t1\t2\n", "chr2\t3\t4\tn\n"]
    ["#C\n", "c\t1\t.\tA\tT\t.\tPASS\t.\tGT\ts\n"]
    (by
      intro l hl hs
      simp only [List.mem_cons, List.not_mem_nil, or_false] at hl
      rcases hl with rfl | rfl | rfl
      · exact absurd hs (by decide)
      · exact ⟨Region.make "chr1" 1 2 ".", by decide⟩
      · exact ⟨Region.make "chr2" 3 4 "n", by decide⟩)
    (by
      intro l hl hs
      simp only [List.mem_cons, List.not_mem_nil, or_false] at hl
      rcases hl with rfl | rfl
      · exact absurd hs (by decide)
      · exact ⟨⟨"c", 1, ".", "A", "T", none, "PASS", ["."], ["GT"], ["s"]⟩, by decide⟩)
